import Mathlib

/-!
Shallow embedding of the clia/config-expr rule engine (src/lib.rs).

The data model (`Operator`, `Condition`, `RuleResult`, `Rule`, `ConfigRules`),
the evaluator (`evaluate`, `evaluate_condition`, `evaluate_simple_condition`,
`compare_numbers`) and the validator (`validate_rules`, `validate_condition`)
are translated from the Rust source.  The two external collaborators the
source uses — the regex engine (`Regex::new` / `Regex::is_match`) and the
floating-point parser (`str::parse::<f64>`) — are abstracted as an explicit
record of functions `ExternalFns`, universally quantified in every theorem;
numbers are represented by `ℚ` in place of `f64`.  The runtime parameter map
(`HashMap<String, String>`) is represented by an association list read only
through `List.lookup`.
-/

set_option maxRecDepth 8192

/-- The operator enumeration of the rule language (Rust `Operator`,
src/lib.rs lines 22-38).  `PrefixOp`/`SuffixOp` stand for the Rust variants
named after starts-with / ends-with matching. -/
inductive Operator where
| Equals
| Contains
| PrefixOp
| SuffixOp
| Regex
| GreaterThan
| LessThan
| GreaterThanOrEqual
| LessThanOrEqual
deriving DecidableEq

/-- Rust `Operator::is_valid` (src/lib.rs lines 40-56): a `matches!` that
lists every variant of the closed enumeration, hence true on all of them. -/
def Operator.is_valid : Operator → Bool
| .Equals => true
| .Contains => true
| .PrefixOp => true
| .SuffixOp => true
| .Regex => true
| .GreaterThan => true
| .LessThan => true
| .GreaterThanOrEqual => true
| .LessThanOrEqual => true

/-- The operator strings accepted by the serde-derived deserializer, read off
the attributes on `Operator` (rename_all = lowercase, plus the gt/lt/ge/le
renames, src/lib.rs lines 22-38).  Any other string fails to deserialize. -/
def Operator.fromString : String → Option Operator
| "equals" => some .Equals
| "contains" => some .Contains
| "prefix" => some .PrefixOp
| "suffix" => some .SuffixOp
| "regex" => some .Regex
| "gt" => some .GreaterThan
| "lt" => some .LessThan
| "ge" => some .GreaterThanOrEqual
| "le" => some .LessThanOrEqual
| _ => none

/-- Rust `Condition` (src/lib.rs lines 59-72): a leaf comparison or an
And / Or node over a list of children. -/
inductive Condition where
| simple (field : String) (op : Operator) (value : String)
| and (children : List Condition)
| or (children : List Condition)

/-- Minimal JSON value tree standing for `serde_json::Value`; the engine
treats it as opaque (returned verbatim, never inspected). -/
inductive JsonValue where
| null
| bool (b : Bool)
| num (q : ℚ)
| str (s : String)
| arr (items : List JsonValue)
| obj (fields : List (String × JsonValue))

/-- Rust `RuleResult` (src/lib.rs lines 75-80): a string tag or an opaque
structured object. -/
inductive RuleResult where
| string (s : String)
| object (v : JsonValue)

/-- Rust `Rule` (src/lib.rs lines 83-89). -/
structure Rule where
  condition : Condition
  result : RuleResult

/-- Rust `ConfigRules` (src/lib.rs lines 92-97). -/
structure ConfigRules where
  rules : List Rule
  fallback : Option RuleResult

/-- Rust `ConfigExprError` (src/lib.rs lines 7-19), with each payload
flattened to its message string. -/
inductive ConfigExprError where
| InvalidOperator (msg : String)
| FieldNotFound (msg : String)
| RegexError (msg : String)
| JsonError (msg : String)
| ValidationError (msg : String)
deriving DecidableEq

/-- The two external collaborators of the engine, abstracted as functions.
`regexCompileErr p = none` means `Regex::new(p)` succeeds, `some e` means it
fails with message `e`; `regexIsMatch p s` is `Regex::new(p).is_match(s)`
for a pattern that compiles; `parseFloat` is `str::parse::<f64>`, with the
parsed numbers represented in `ℚ`. -/
structure ExternalFns where
  regexCompileErr : String → Option String
  regexIsMatch : String → String → Bool
  parseFloat : String → Option ℚ

/-- The runtime parameter context: Rust `HashMap<String, String>`,
represented as an association list read only through `List.lookup`. -/
abbrev Ctx := List (String × String)

/-- Character-list substring test used to model Rust `str::contains`. -/
def strContainsAux (pat : List Char) : List Char → Bool
| [] => pat.isEmpty
| c :: rest => pat.isPrefixOf (c :: rest) || strContainsAux pat rest

/-- Rust `field_value.contains(value)`: substring containment. -/
def strContains (s pat : String) : Bool :=
  strContainsAux pat.toList s.toList

/-- Rust `field_value.starts_with(value)`. -/
def strStartsWith (s pat : String) : Bool :=
  pat.toList.isPrefixOf s.toList

/-- Rust `field_value.ends_with(value)`. -/
def strEndsWith (s pat : String) : Bool :=
  pat.toList.isSuffixOf s.toList

/-- Rust `ConfigEvaluator::compare_numbers` (src/lib.rs lines 171-179):
parse both strings as numbers; apply the comparison when both parse,
otherwise false. -/
def compare_numbers (ext : ExternalFns) (field_value target_value : String)
    (compare_fn : ℚ → ℚ → Bool) : Bool :=
  match ext.parseFloat field_value, ext.parseFloat target_value with
  | some field_num, some target_num => compare_fn field_num target_num
  | _, _ => false

/-- Rust `ConfigEvaluator::evaluate_simple_condition` (src/lib.rs lines
140-168): look the field up in the context (absent means false), then apply
the operator. -/
def evaluate_simple_condition (ext : ExternalFns) (field : String)
    (op : Operator) (value : String) (params : Ctx) : Bool :=
  match params.lookup field with
  | none => false
  | some field_value =>
    match op with
    | .Equals => field_value == value
    | .Contains => strContains field_value value
    | .PrefixOp => strStartsWith field_value value
    | .SuffixOp => strEndsWith field_value value
    | .Regex =>
      match ext.regexCompileErr value with
      | none => ext.regexIsMatch value field_value
      | some _ => false
    | .GreaterThan => compare_numbers ext field_value value (fun a b => decide (a > b))
    | .LessThan => compare_numbers ext field_value value (fun a b => decide (a < b))
    | .GreaterThanOrEqual => compare_numbers ext field_value value (fun a b => decide (a ≥ b))
    | .LessThanOrEqual => compare_numbers ext field_value value (fun a b => decide (a ≤ b))

mutual

/-- Rust `ConfigEvaluator::evaluate_condition` (src/lib.rs lines 129-137). -/
def evaluate_condition (ext : ExternalFns) (condition : Condition) (params : Ctx) : Bool :=
  match condition with
  | .simple field op value => evaluate_simple_condition ext field op value params
  | .and children => evaluate_condition_all ext children params
  | .or children => evaluate_condition_any ext children params

/-- The `iter().all(...)` over And children: short-circuit conjunction. -/
def evaluate_condition_all (ext : ExternalFns) (children : List Condition) (params : Ctx) : Bool :=
  match children with
  | [] => true
  | c :: rest => evaluate_condition ext c params && evaluate_condition_all ext rest params

/-- The `iter().any(...)` over Or children: short-circuit disjunction. -/
def evaluate_condition_any (ext : ExternalFns) (children : List Condition) (params : Ctx) : Bool :=
  match children with
  | [] => false
  | c :: rest => evaluate_condition ext c params || evaluate_condition_any ext rest params

end

/-- The rule loop inside Rust `ConfigEvaluator::evaluate`: first matching
result of the first matching rule, else the fallback. -/
def evaluate_rules_list (ext : ExternalFns) (params : Ctx)
    (fallback : Option RuleResult) : List Rule → Option RuleResult
| [] => fallback
| rule :: rest =>
  if evaluate_condition ext rule.condition params then some rule.result
  else evaluate_rules_list ext params fallback rest

/-- Rust `ConfigEvaluator::evaluate` (src/lib.rs lines 119-126). -/
def evaluate (ext : ExternalFns) (self : ConfigRules) (params : Ctx) : Option RuleResult :=
  evaluate_rules_list ext params self.fallback self.rules

mutual

/-- Rust `ConfigEvaluator::validate_condition` (src/lib.rs lines 198-246):
reject an empty field name, an invalid operator, a regex literal that does
not compile, and empty And / Or child lists; recurse into children and stop
at the first violation. -/
def validate_condition (ext : ExternalFns) (condition : Condition)
    (rule_index : Nat) : Except ConfigExprError Unit :=
  match condition with
  | .simple field op value =>
    if field.isEmpty then
      .error (.ValidationError ("Field name cannot be empty in rule " ++ toString rule_index))
    else if !op.is_valid then
      .error (.InvalidOperator ("rule " ++ toString rule_index))
    else
      match op with
      | .Regex =>
        match ext.regexCompileErr value with
        | some e =>
          .error (.ValidationError ("Invalid regex " ++ value ++ " in rule "
            ++ toString rule_index ++ ": " ++ e))
        | none => .ok ()
      | _ => .ok ()
  | .and children =>
    if children.isEmpty then
      .error (.ValidationError ("AND condition cannot be empty in rule " ++ toString rule_index))
    else validate_condition_list ext children rule_index
  | .or children =>
    if children.isEmpty then
      .error (.ValidationError ("OR condition cannot be empty in rule " ++ toString rule_index))
    else validate_condition_list ext children rule_index

/-- The `for cond in children` validation loop: first error wins. -/
def validate_condition_list (ext : ExternalFns) (children : List Condition)
    (rule_index : Nat) : Except ConfigExprError Unit :=
  match children with
  | [] => .ok ()
  | c :: rest =>
    match validate_condition ext c rule_index with
    | .ok _ => validate_condition_list ext rest rule_index
    | .error e => .error e

end

/-- The indexed `for (index, rule)` loop inside `validate_rules`. -/
def validate_rules_from (ext : ExternalFns) (index : Nat) :
    List Rule → Except ConfigExprError Unit
| [] => .ok ()
| rule :: rest =>
  match validate_condition ext rule.condition index with
  | .ok _ => validate_rules_from ext (index + 1) rest
  | .error e => .error e

/-- Rust `ConfigEvaluator::validate_rules` (src/lib.rs lines 182-195).  An
empty rule list is accepted (the rejecting branch is commented out in the
source); otherwise the condition of each rule is validated at its index. -/
def validate_rules (ext : ExternalFns) (rules : ConfigRules) :
    Except ConfigExprError Unit :=
  if rules.rules.isEmpty then .ok ()
  else validate_rules_from ext 0 rules.rules

/-- Rust `ConfigEvaluator::new` (src/lib.rs lines 106-110): validate, then
wrap the rule set (the evaluator struct is just the rule set). -/
def ConfigEvaluator.new (ext : ExternalFns) (rules : ConfigRules) :
    Except ConfigExprError ConfigRules :=
  match validate_rules ext rules with
  | .ok _ => .ok rules
  | .error e => .error e

/-- Modelled from the spec: a raw condition as shaped by the JSON decoder
(the external collaborator) before the operator string is interpreted: the
same tree grammar, with `op` still a raw string. -/
inductive RawCondition where
| simple (field : String) (op : String) (value : String)
| and (children : List RawCondition)
| or (children : List RawCondition)

/-- Modelled from the spec: a raw rule of a decoded document. -/
structure RawRule where
  condition : RawCondition
  result : RuleResult

/-- Modelled from the spec: a raw rule set of a decoded document. -/
structure RawConfigRules where
  rules : List RawRule
  fallback : Option RuleResult

mutual

/-- Modelled from the spec: the serde-derived untagged decoding of
`Condition` (the external JSON collaborator, not written out under src/).
The spec fixes the operator vocabulary to the nine strings of the closed
enumeration and the decode procedure to try each variant by shape; here the
document is already shaped into the condition grammar and only the operator
string remains to be interpreted, so decoding fails exactly when some leaf
carries an unknown operator string. -/
def decodeCondition : RawCondition → Option Condition
| .simple field op value =>
  match Operator.fromString op with
  | some o => some (.simple field o value)
  | none => none
| .and children =>
  match decodeConditionList children with
  | some cs => some (.and cs)
  | none => none
| .or children =>
  match decodeConditionList children with
  | some cs => some (.or cs)
  | none => none

/-- Modelled from the spec: decoding of a condition array; every element
must decode. -/
def decodeConditionList : List RawCondition → Option (List Condition)
| [] => some []
| c :: rest =>
  match decodeCondition c, decodeConditionList rest with
  | some c', some rest' => some (c' :: rest')
  | _, _ => none

end

/-- Modelled from the spec: decoding of one raw rule. -/
def decodeRule (r : RawRule) : Option Rule :=
  match decodeCondition r.condition with
  | some c => some ⟨c, r.result⟩
  | none => none

/-- Modelled from the spec: decoding of a raw rule list. -/
def decodeRuleList : List RawRule → Option (List Rule)
| [] => some []
| r :: rest =>
  match decodeRule r, decodeRuleList rest with
  | some r', some rest' => some (r' :: rest')
  | _, _ => none

/-- Modelled from the spec: decoding of a raw rule set document. -/
def decodeConfigRules (doc : RawConfigRules) : Option ConfigRules :=
  match decodeRuleList doc.rules with
  | some rs => some ⟨rs, doc.fallback⟩
  | none => none

/-- Modelled from the spec: Rust `validate_json` (src/lib.rs lines 259-262)
over an already-shaped document: decode (serde, the modelled collaborator),
then run the validator.  A decode failure is surfaced as the serde error for
an untagged enum, wrapped in `JsonError`. -/
def validate_json (ext : ExternalFns) (doc : RawConfigRules) :
    Except ConfigExprError Unit :=
  match decodeConfigRules doc with
  | none => .error (.JsonError "data did not match any variant of untagged enum Condition")
  | some rules => validate_rules ext rules

mutual

/-- Structural invariant checked for C8: every And / Or node in the tree has
a non-empty child list. -/
def cond_and_or_nonempty : Condition → Bool
| .simple _ _ _ => true
| .and children => !children.isEmpty && cond_list_and_or_nonempty children
| .or children => !children.isEmpty && cond_list_and_or_nonempty children

/-- List form of `cond_and_or_nonempty`. -/
def cond_list_and_or_nonempty : List Condition → Bool
| [] => true
| c :: rest => cond_and_or_nonempty c && cond_list_and_or_nonempty rest

end

mutual

/-- Structural invariant checked for C5: every Regex leaf in the tree
carries a pattern the regex collaborator compiles. -/
def cond_regex_ok (ext : ExternalFns) : Condition → Bool
| .simple _ op value =>
  match op with
  | .Regex => (ext.regexCompileErr value).isNone
  | _ => true
| .and children => cond_list_regex_ok ext children
| .or children => cond_list_regex_ok ext children

/-- List form of `cond_regex_ok`. -/
def cond_list_regex_ok (ext : ExternalFns) : List Condition → Bool
| [] => true
| c :: rest => cond_regex_ok ext c && cond_list_regex_ok ext rest

end

/-- A concrete instance of the external collaborators, used by the witness
theorems: one pattern fails to compile, matching is string equality, and the
number parser recognises a small table of decimal literals. -/
def extDefault : ExternalFns where
  regexCompileErr := fun p => if p = "[invalid" then some "unclosed character class" else none
  regexIsMatch := fun p s => p == s
  parseFloat := fun s =>
    if s = "85" then some 85
    else if s = "80" then some 80
    else if s = "75" then some 75
    else if s = "10" then some 10
    else none

/-- Every operator of the closed enumeration is valid. -/
theorem Operator.is_valid_eq_true : ∀ op : Operator, op.is_valid = true := by
  intro op
  cases op <;> rfl

/-- The And loop agrees with `List.all`. -/
theorem evaluate_condition_all_eq (ext : ExternalFns) (params : Ctx) :
    ∀ children : List Condition,
      evaluate_condition_all ext children params
        = children.all (fun c => evaluate_condition ext c params) := by
  intro children
  induction children with
  | nil => rfl
  | cons c rest ih => simp [evaluate_condition_all, ih]

/-- The Or loop agrees with `List.any`. -/
theorem evaluate_condition_any_eq (ext : ExternalFns) (params : Ctx) :
    ∀ children : List Condition,
      evaluate_condition_any ext children params
        = children.any (fun c => evaluate_condition ext c params) := by
  intro children
  induction children with
  | nil => rfl
  | cons c rest ih => simp [evaluate_condition_any, ih]

/-- First matching rule wins in the rule loop. -/
theorem evaluate_rules_list_first (ext : ExternalFns) (params : Ctx)
    (fallback : Option RuleResult) :
    ∀ (pre : List Rule) (r : Rule) (post : List Rule),
      (∀ r' ∈ pre, evaluate_condition ext r'.condition params = false) →
      evaluate_condition ext r.condition params = true →
      evaluate_rules_list ext params fallback (pre ++ r :: post) = some r.result := by
  intro pre
  induction pre with
  | nil =>
    intro r post _ hr
    simp [evaluate_rules_list, hr]
  | cons p rest ih =>
    intro r post hpre hr
    have hp : evaluate_condition ext p.condition params = false :=
      hpre p (List.mem_cons_self p rest)
    have hrest : ∀ r' ∈ rest, evaluate_condition ext r'.condition params = false :=
      fun r' hr' => hpre r' (List.mem_cons_of_mem p hr')
    simp [evaluate_rules_list, hp, ih r post hrest hr]

/-- When no rule matches, the rule loop returns the fallback. -/
theorem evaluate_rules_list_none (ext : ExternalFns) (params : Ctx)
    (fallback : Option RuleResult) :
    ∀ rules : List Rule,
      (∀ r ∈ rules, evaluate_condition ext r.condition params = false) →
      evaluate_rules_list ext params fallback rules = fallback := by
  intro rules
  induction rules with
  | nil => intro _; rfl
  | cons p rest ih =>
    intro h
    have hp : evaluate_condition ext p.condition params = false :=
      h p (List.mem_cons_self p rest)
    have hrest := fun r' hr' => h r' (List.mem_cons_of_mem p hr')
    simp [evaluate_rules_list, hp, ih hrest]

/-- Claim C1: for every rule set and context, `evaluate` returns the result
of the first rule in document order whose condition evaluates true (the rules
after it play no part), and when the condition of no rule is true it returns the
configured fallback, or none when no fallback is set (the fallback field is
then `none`). -/
theorem C1_first_match_wins_else_fallback (ext : ExternalFns)
    (rs : ConfigRules) (params : Ctx) :
    (∀ (pre : List Rule) (r : Rule) (post : List Rule),
      rs.rules = pre ++ r :: post →
      (∀ r' ∈ pre, evaluate_condition ext r'.condition params = false) →
      evaluate_condition ext r.condition params = true →
      evaluate ext rs params = some r.result)
    ∧ ((∀ r ∈ rs.rules, evaluate_condition ext r.condition params = false) →
      evaluate ext rs params = rs.fallback) := by
  constructor
  · intro pre r post hsplit hpre hr
    unfold evaluate
    rw [hsplit]
    exact evaluate_rules_list_first ext params rs.fallback pre r post hpre hr
  · intro hnone
    unfold evaluate
    exact evaluate_rules_list_none ext params rs.fallback rs.rules hnone

/-- Claim C1 witness: with two rules of which only the second matches, the
result of the second rule is returned; with none matching, the fallback is. -/
theorem C1_first_match_wins_else_fallback_witness :
    evaluate extDefault
      ⟨[⟨.simple "platform" .Equals "MT", .string "chip_mt"⟩,
        ⟨.simple "platform" .Equals "RTD", .string "chip_rtd"⟩],
       some (.string "default_chip")⟩ [("platform", "RTD")]
      = some (.string "chip_rtd")
    ∧ evaluate extDefault
      ⟨[⟨.simple "platform" .Equals "MT", .string "chip_mt"⟩],
       some (.string "default_chip")⟩ [("platform", "RTD")]
      = some (.string "default_chip") := by
  constructor
  · exact (C1_first_match_wins_else_fallback extDefault
      ⟨[⟨.simple "platform" .Equals "MT", .string "chip_mt"⟩,
        ⟨.simple "platform" .Equals "RTD", .string "chip_rtd"⟩],
       some (.string "default_chip")⟩ [("platform", "RTD")]).1
      [⟨.simple "platform" .Equals "MT", .string "chip_mt"⟩]
      ⟨.simple "platform" .Equals "RTD", .string "chip_rtd"⟩ [] rfl
      (by intro r' hr'; simp at hr'; subst hr'; rfl) rfl
  · exact (C1_first_match_wins_else_fallback extDefault
      ⟨[⟨.simple "platform" .Equals "MT", .string "chip_mt"⟩],
       some (.string "default_chip")⟩ [("platform", "RTD")]).2
      (by intro r hr; simp at hr; subst hr; rfl)

/-- Claim C2: an And condition evaluates true iff every child does, an Or
condition evaluates true iff some child does, and both unfold head-first
(short-circuit conjunction / disjunction over the children list). -/
theorem C2_and_or_semantics (ext : ExternalFns) (params : Ctx)
    (children : List Condition) :
    (evaluate_condition ext (.and children) params = true
       ↔ ∀ c ∈ children, evaluate_condition ext c params = true)
    ∧ (evaluate_condition ext (.or children) params = true
       ↔ ∃ c ∈ children, evaluate_condition ext c params = true)
    ∧ (∀ c rest, children = c :: rest →
        evaluate_condition ext (.and children) params
          = (evaluate_condition ext c params && evaluate_condition ext (.and rest) params))
    ∧ (∀ c rest, children = c :: rest →
        evaluate_condition ext (.or children) params
          = (evaluate_condition ext c params || evaluate_condition ext (.or rest) params)) := by
  refine ⟨?_, ?_, ?_, ?_⟩
  · rw [show evaluate_condition ext (.and children) params
        = evaluate_condition_all ext children params from rfl]
    rw [evaluate_condition_all_eq]
    exact List.all_eq_true
  · rw [show evaluate_condition ext (.or children) params
        = evaluate_condition_any ext children params from rfl]
    rw [evaluate_condition_any_eq]
    exact List.any_eq_true
  · intro c rest hsplit
    subst hsplit
    rfl
  · intro c rest hsplit
    subst hsplit
    rfl

/-- Claim C2 witness: And over a false head is false and Or over a true head
is true, regardless of the remaining child. -/
theorem C2_and_or_semantics_witness :
    evaluate_condition extDefault
      (.and [.simple "a" .Equals "1", .simple "b" .Equals "2"]) [("a", "0"), ("b", "2")] = false
    ∧ evaluate_condition extDefault
      (.or [.simple "a" .Equals "0", .simple "b" .Equals "9"]) [("a", "0"), ("b", "2")] = true := by
  constructor
  · have h := (C2_and_or_semantics extDefault [("a", "0"), ("b", "2")]
      [Condition.simple "a" .Equals "1", Condition.simple "b" .Equals "2"]).2.2.1
      (Condition.simple "a" .Equals "1") [Condition.simple "b" .Equals "2"] rfl
    rw [h]
    rfl
  · have h := (C2_and_or_semantics extDefault [("a", "0"), ("b", "2")]
      [Condition.simple "a" .Equals "0", Condition.simple "b" .Equals "9"]).2.2.2
      (Condition.simple "a" .Equals "0") [Condition.simple "b" .Equals "9"] rfl
    rw [h]
    rfl

/-- Claim C3: a Simple condition whose field is absent from the context
evaluates to false whatever the operator, and no error is possible (the
return type of the evaluator has no error case). -/
theorem C3_missing_field_false (ext : ExternalFns) (field : String)
    (op : Operator) (value : String) (params : Ctx)
    (h : params.lookup field = none) :
    evaluate_condition ext (.simple field op value) params = false := by
  show evaluate_simple_condition ext field op value params = false
  unfold evaluate_simple_condition
  rw [h]

/-- Claim C3 witness: a lookup miss makes a Simple condition false. -/
theorem C3_missing_field_false_witness :
    evaluate_condition extDefault (.simple "missing" .Regex "[invalid")
      [("present", "1")] = false :=
  C3_missing_field_false extDefault "missing" .Regex "[invalid"
    [("present", "1")] rfl

/-- Claim C4: the four numeric operators parse both the looked-up field
value and the literal of the rule with the number parser; when either fails the
leaf is false (no error case exists), and when both parse the corresponding
numeric comparison decides the leaf. -/
theorem C4_numeric_comparisons (ext : ExternalFns) (field value : String)
    (params : Ctx) (fv : String)
    (hlk : params.lookup field = some fv) :
    ((ext.parseFloat fv = none ∨ ext.parseFloat value = none) →
      (evaluate_simple_condition ext field .GreaterThan value params = false
       ∧ evaluate_simple_condition ext field .LessThan value params = false
       ∧ evaluate_simple_condition ext field .GreaterThanOrEqual value params = false
       ∧ evaluate_simple_condition ext field .LessThanOrEqual value params = false))
    ∧ (∀ a b : ℚ, ext.parseFloat fv = some a → ext.parseFloat value = some b →
      (evaluate_simple_condition ext field .GreaterThan value params = decide (a > b)
       ∧ evaluate_simple_condition ext field .LessThan value params = decide (a < b)
       ∧ evaluate_simple_condition ext field .GreaterThanOrEqual value params = decide (a ≥ b)
       ∧ evaluate_simple_condition ext field .LessThanOrEqual value params = decide (a ≤ b))) := by
  constructor
  · intro hfail
    cases hfail with
    | inl hne =>
      refine ⟨?_, ?_, ?_, ?_⟩ <;>
        simp [evaluate_simple_condition, hlk, compare_numbers, hne]
    | inr hne =>
      refine ⟨?_, ?_, ?_, ?_⟩ <;>
        · simp only [evaluate_simple_condition, hlk, compare_numbers, hne]
          cases ext.parseFloat fv <;> rfl
  · intro a b ha hb
    refine ⟨?_, ?_, ?_, ?_⟩ <;>
      simp [evaluate_simple_condition, hlk, compare_numbers, ha, hb]

/-- Claim C4 witness: with a numeric field value the comparison decides the
leaf, and with a non-numeric field value the leaf is false. -/
theorem C4_numeric_comparisons_witness :
    evaluate_simple_condition extDefault "score" .GreaterThan "80"
      [("score", "85")] = true
    ∧ evaluate_simple_condition extDefault "level" .GreaterThan "10"
      [("level", "not_a_number")] = false := by
  constructor
  · have h := (C4_numeric_comparisons extDefault "score" "80"
      [("score", "85")] "85" rfl).2 85 80 rfl rfl
    rw [h.1]
    rfl
  · have h := (C4_numeric_comparisons extDefault "level" "10"
      [("level", "not_a_number")] "not_a_number" rfl).1 (Or.inl rfl)
    exact h.1

/-- Claim C10: an empty rule list passes validation (the rejecting branch is
commented out in the source), the evaluator constructor therefore accepts
it, and evaluating it returns the fallback — or none when the fallback is
none — for every context. -/
theorem C10_empty_rules_ok (ext : ExternalFns) (fb : Option RuleResult)
    (params : Ctx) :
    validate_rules ext ⟨[], fb⟩ = .ok ()
    ∧ ConfigEvaluator.new ext ⟨[], fb⟩ = .ok ⟨[], fb⟩
    ∧ evaluate ext ⟨[], fb⟩ params = fb := by
  exact ⟨rfl, rfl, rfl⟩

/-- Inversion for validating a Simple condition: success means the field is
non-empty and, for a Regex leaf, the pattern compiles. -/
theorem validate_condition_simple_ok (ext : ExternalFns) (f : String)
    (op : Operator) (v : String) (i : Nat) :
    validate_condition ext (.simple f op v) i = .ok ()
      ↔ (f.isEmpty = false ∧ (op = .Regex → ext.regexCompileErr v = none)) := by
  unfold validate_condition
  by_cases hf : f.isEmpty
  · simp [hf]
  · simp only [hf, if_false, Bool.false_eq_true, eq_self_iff_true]
    rw [if_neg (by simp [Operator.is_valid_eq_true])]
    cases op <;> simp <;> cases hre : ext.regexCompileErr v <;> simp [hre]

/-- Inversion for validating an And node: success means the children list is
non-empty and validates. -/
theorem validate_condition_and_ok (ext : ExternalFns) (cs : List Condition)
    (i : Nat) :
    validate_condition ext (.and cs) i = .ok ()
      ↔ (cs.isEmpty = false ∧ validate_condition_list ext cs i = .ok ()) := by
  unfold validate_condition
  by_cases hcs : cs.isEmpty <;> simp [hcs]

/-- Inversion for validating an Or node: success means the children list is
non-empty and validates. -/
theorem validate_condition_or_ok (ext : ExternalFns) (cs : List Condition)
    (i : Nat) :
    validate_condition ext (.or cs) i = .ok ()
      ↔ (cs.isEmpty = false ∧ validate_condition_list ext cs i = .ok ()) := by
  unfold validate_condition
  by_cases hcs : cs.isEmpty <;> simp [hcs]

/-- Inversion for the child-validation loop: success means every child
validates. -/
theorem validate_condition_list_ok (ext : ExternalFns) :
    ∀ (cs : List Condition) (i : Nat),
      validate_condition_list ext cs i = .ok ()
        ↔ ∀ c ∈ cs, validate_condition ext c i = .ok () := by
  intro cs i
  induction cs with
  | nil => simp [validate_condition_list]
  | cons c rest ih =>
    unfold validate_condition_list
    cases hc : validate_condition ext c i with
    | ok u =>
      cases u
      simp [hc, ih]
    | error e => simp [hc]

mutual

/-- Validation success forces every Regex leaf of the tree to compile. -/
theorem validate_condition_regex_ok (ext : ExternalFns) :
    ∀ (c : Condition) (i : Nat),
      validate_condition ext c i = .ok () → cond_regex_ok ext c = true
| .simple f op v, i, h => by
  rw [validate_condition_simple_ok] at h
  cases op <;> simp [cond_regex_ok] <;> simp [h.2 rfl]
| .and cs, i, h => by
  rw [validate_condition_and_ok] at h
  show cond_list_regex_ok ext cs = true
  exact validate_condition_list_regex_ok ext cs i h.2
| .or cs, i, h => by
  rw [validate_condition_or_ok] at h
  show cond_list_regex_ok ext cs = true
  exact validate_condition_list_regex_ok ext cs i h.2

/-- List form of `validate_condition_regex_ok`. -/
theorem validate_condition_list_regex_ok (ext : ExternalFns) :
    ∀ (cs : List Condition) (i : Nat),
      validate_condition_list ext cs i = .ok () → cond_list_regex_ok ext cs = true
| [], _, _ => rfl
| c :: rest, i, h => by
  unfold validate_condition_list at h
  cases hc : validate_condition ext c i with
  | ok u =>
    cases u
    rw [hc] at h
    have h1 := validate_condition_regex_ok ext c i hc
    have h2 := validate_condition_list_regex_ok ext rest i h
    simp [cond_list_regex_ok, h1, h2]
  | error e => rw [hc] at h; exact absurd h (by simp)

end

mutual

/-- Validation success forces every And / Or node of the tree to have a
non-empty children list. -/
theorem validate_condition_and_or_nonempty (ext : ExternalFns) :
    ∀ (c : Condition) (i : Nat),
      validate_condition ext c i = .ok () → cond_and_or_nonempty c = true
| .simple _ _ _, _, _ => rfl
| .and cs, i, h => by
  rw [validate_condition_and_ok] at h
  have h2 := validate_condition_list_and_or_nonempty ext cs i h.2
  simp [cond_and_or_nonempty, h.1, h2]
| .or cs, i, h => by
  rw [validate_condition_or_ok] at h
  have h2 := validate_condition_list_and_or_nonempty ext cs i h.2
  simp [cond_and_or_nonempty, h.1, h2]

/-- List form of `validate_condition_and_or_nonempty`. -/
theorem validate_condition_list_and_or_nonempty (ext : ExternalFns) :
    ∀ (cs : List Condition) (i : Nat),
      validate_condition_list ext cs i = .ok () → cond_list_and_or_nonempty cs = true
| [], _, _ => rfl
| c :: rest, i, h => by
  unfold validate_condition_list at h
  cases hc : validate_condition ext c i with
  | ok u =>
    cases u
    rw [hc] at h
    have h1 := validate_condition_and_or_nonempty ext c i hc
    have h2 := validate_condition_list_and_or_nonempty ext rest i h
    simp [cond_list_and_or_nonempty, h1, h2]
  | error e => rw [hc] at h; exact absurd h (by simp)

end

mutual

/-- The validator never produces an `InvalidOperator` error: every value of
the closed operator enumeration passes `Operator.is_valid`, so the guarded
branch is unreachable. -/
theorem validate_condition_no_invalid_op (ext : ExternalFns) :
    ∀ (c : Condition) (i : Nat) (msg : String),
      validate_condition ext c i ≠ .error (.InvalidOperator msg)
| .simple f op v, i, msg => by
  unfold validate_condition
  by_cases hf : f.isEmpty
  · simp [hf]
  · rw [if_neg hf, if_neg (by simp [Operator.is_valid_eq_true])]
    cases op <;> simp <;> cases hre : ext.regexCompileErr v <;> simp
| .and cs, i, msg => by
  unfold validate_condition
  by_cases hcs : cs.isEmpty
  · simp [hcs]
  · rw [if_neg hcs]
    exact validate_condition_list_no_invalid_op ext cs i msg
| .or cs, i, msg => by
  unfold validate_condition
  by_cases hcs : cs.isEmpty
  · simp [hcs]
  · rw [if_neg hcs]
    exact validate_condition_list_no_invalid_op ext cs i msg

/-- List form of `validate_condition_no_invalid_op`. -/
theorem validate_condition_list_no_invalid_op (ext : ExternalFns) :
    ∀ (cs : List Condition) (i : Nat) (msg : String),
      validate_condition_list ext cs i ≠ .error (.InvalidOperator msg)
| [], _, _ => by simp [validate_condition_list]
| c :: rest, i, msg => by
  unfold validate_condition_list
  cases hc : validate_condition ext c i with
  | ok u =>
    cases u
    exact validate_condition_list_no_invalid_op ext rest i msg
  | error e =>
    intro h
    simp only [Except.error.injEq] at h
    subst h
    exact validate_condition_no_invalid_op ext c i msg hc

end

/-- Each rule of a successfully validated list validates at some index. -/
theorem validate_rules_from_ok_mem (ext : ExternalFns) :
    ∀ (l : List Rule) (n : Nat),
      validate_rules_from ext n l = .ok () →
      ∀ r ∈ l, ∃ i, validate_condition ext r.condition i = .ok ()
| [], _, _, r, hr => absurd hr (List.not_mem_nil r)
| p :: rest, n, h, r, hr => by
  unfold validate_rules_from at h
  cases hp : validate_condition ext p.condition n with
  | ok u =>
    cases u
    rw [hp] at h
    cases hr with
    | head => exact ⟨n, hp⟩
    | tail _ hr' => exact validate_rules_from_ok_mem ext rest (n + 1) h r hr'
  | error e => rw [hp] at h; exact absurd h (by simp)

/-- Each rule of a successfully validated rule set validates at some index. -/
theorem validate_rules_ok_mem (ext : ExternalFns) (rs : ConfigRules)
    (h : validate_rules ext rs = .ok ()) :
    ∀ r ∈ rs.rules, ∃ i, validate_condition ext r.condition i = .ok () := by
  intro r hr
  unfold validate_rules at h
  by_cases he : rs.rules.isEmpty
  · rw [List.isEmpty_iff] at he
    rw [he] at hr
    exact absurd hr (List.not_mem_nil r)
  · rw [if_neg he] at h
    exact validate_rules_from_ok_mem ext rs.rules 0 h r hr

/-- Claim C5: regex handling is strict at validation time and lenient at
evaluation time.  Validation succeeds only when every Regex leaf compiles
(so a rule set with a non-compiling pattern is rejected), a non-compiling
Regex leaf is reported as a validation error naming the pattern, and at
evaluation time the same leaf merely evaluates to false. -/
theorem C5_regex_strict_validate_lenient_evaluate (ext : ExternalFns) :
    (∀ rs : ConfigRules, validate_rules ext rs = .ok () →
       ∀ r ∈ rs.rules, cond_regex_ok ext r.condition = true)
    ∧ (∀ (field value : String) (params : Ctx),
       ext.regexCompileErr value ≠ none →
       evaluate_condition ext (.simple field .Regex value) params = false)
    ∧ (∀ (field value : String) (i : Nat) (e : String),
       field.isEmpty = false → ext.regexCompileErr value = some e →
       validate_condition ext (.simple field .Regex value) i =
         .error (.ValidationError ("Invalid regex " ++ value ++ " in rule "
           ++ toString i ++ ": " ++ e))) := by
  refine ⟨?_, ?_, ?_⟩
  · intro rs h r hr
    rcases validate_rules_ok_mem ext rs h r hr with ⟨i, hok⟩
    exact validate_condition_regex_ok ext r.condition i hok
  · intro field value params hbad
    show evaluate_simple_condition ext field .Regex value params = false
    unfold evaluate_simple_condition
    cases params.lookup field with
    | none => rfl
    | some fv =>
      cases hre : ext.regexCompileErr value with
      | none => exact absurd hre hbad
      | some e => rfl
  · intro field value i e hf hre
    unfold validate_condition
    rw [if_neg (by simp [hf]), if_neg (by simp [Operator.is_valid_eq_true])]
    rw [hre]

/-- Claim C5 witness: a non-compiling pattern is a validation error but only
a false leaf at evaluation time. -/
theorem C5_regex_strict_validate_lenient_evaluate_witness :
    evaluate_condition extDefault (.simple "p" .Regex "[invalid")
      [("p", "x")] = false
    ∧ validate_condition extDefault (.simple "p" .Regex "[invalid") 0 =
      .error (.ValidationError
        "Invalid regex [invalid in rule 0: unclosed character class") := by
  constructor
  · exact (C5_regex_strict_validate_lenient_evaluate extDefault).2.1
      "p" "[invalid" [("p", "x")] (by simp [extDefault])
  · exact (C5_regex_strict_validate_lenient_evaluate extDefault).2.2
      "p" "[invalid" 0 "unclosed character class" rfl rfl

/-- Validating a list of rules skips a prefix whose rules all validate at
their own index. -/
theorem validate_rules_from_append (ext : ExternalFns) :
    ∀ (pre : List Rule) (n : Nat) (rest : List Rule),
      (∀ (j : Nat) (rule : Rule), pre.get? j = some rule →
        validate_condition ext rule.condition (n + j) = .ok ()) →
      validate_rules_from ext n (pre ++ rest)
        = validate_rules_from ext (n + pre.length) rest := by
  intro pre
  induction pre with
  | nil => intro n rest _; simp
  | cons p pre' ih =>
    intro n rest h
    have hp : validate_condition ext p.condition n = .ok () := by
      simpa using h 0 p rfl
    have h' : ∀ (j : Nat) (rule : Rule), pre'.get? j = some rule →
        validate_condition ext rule.condition (n + 1 + j) = .ok () := by
      intro j rule hj
      have := h (j + 1) rule (by simpa using hj)
      rwa [show n + (j + 1) = n + 1 + j by omega] at this
    have hlen : n + (p :: pre').length = n + 1 + pre'.length := by
      simp only [List.length_cons]
      omega
    have hstep : validate_rules_from ext n ((p :: pre') ++ rest)
        = validate_rules_from ext (n + 1) (pre' ++ rest) := by
      show validate_rules_from ext n (p :: (pre' ++ rest)) = _
      conv_lhs => unfold validate_rules_from
      rw [hp]
    rw [hstep, ih (n + 1) rest h', hlen]

/-- Claim C6: a rule whose condition is a Simple leaf with an empty field
name, or an empty And node, or an empty Or node, makes validation of the
whole rule set fail with a single error that carries the index of the rule and
the reason; the rules after the failing one are never looked at (the
trailing list is arbitrary), so the first violation decides the error and
no aggregation happens. -/
theorem C6_validation_rejects_with_index (ext : ExternalFns)
    (pre post : List Rule) (r : Rule) (fb : Option RuleResult)
    (hpre : ∀ (j : Nat) (rule : Rule), pre.get? j = some rule →
      validate_condition ext rule.condition j = .ok ()) :
    (∀ (op : Operator) (value : String), r.condition = .simple "" op value →
      validate_rules ext ⟨pre ++ r :: post, fb⟩ =
        .error (.ValidationError
          ("Field name cannot be empty in rule " ++ toString pre.length)))
    ∧ (r.condition = .and [] →
      validate_rules ext ⟨pre ++ r :: post, fb⟩ =
        .error (.ValidationError
          ("AND condition cannot be empty in rule " ++ toString pre.length)))
    ∧ (r.condition = .or [] →
      validate_rules ext ⟨pre ++ r :: post, fb⟩ =
        .error (.ValidationError
          ("OR condition cannot be empty in rule " ++ toString pre.length))) := by
  have hmain : validate_rules ext ⟨pre ++ r :: post, fb⟩
      = validate_rules_from ext pre.length (r :: post) := by
    unfold validate_rules
    rw [if_neg (by simp)]
    have := validate_rules_from_append ext pre 0 (r :: post)
      (fun j rule hj => by simpa using hpre j rule hj)
    simpa using this
  have hstep : ∀ e : ConfigExprError,
      validate_condition ext r.condition pre.length = .error e →
      validate_rules_from ext pre.length (r :: post) = .error e := by
    intro e he
    conv_lhs => unfold validate_rules_from
    rw [he]
  refine ⟨?_, ?_, ?_⟩
  · intro op value hc
    rw [hmain]
    refine hstep _ ?_
    rw [hc]
    rfl
  · intro hc
    rw [hmain]
    refine hstep _ ?_
    rw [hc]
    rfl
  · intro hc
    rw [hmain]
    refine hstep _ ?_
    rw [hc]
    rfl

/-- Claim C6 witness: with one valid rule ahead of it, an empty-field rule
at index 1 is reported with its index, ignoring a later malformed rule. -/
theorem C6_validation_rejects_with_index_witness :
    validate_rules extDefault
      ⟨[⟨.simple "platform" .Equals "RTD", .string "ok"⟩,
        ⟨.simple "" .Equals "x", .string "bad"⟩,
        ⟨.and [], .string "junk"⟩], none⟩
      = .error (.ValidationError "Field name cannot be empty in rule 1") := by
  have hpre : ∀ (j : Nat) (rule : Rule),
      ([⟨.simple "platform" .Equals "RTD", .string "ok"⟩] : List Rule).get? j
        = some rule →
      validate_condition extDefault rule.condition j = .ok () := by
    intro j rule hj
    cases j with
    | zero =>
      simp only [List.get?] at hj
      cases hj
      rfl
    | succ j' =>
      simp only [List.get?] at hj
      cases j' <;> simp [List.get?] at hj
  exact (C6_validation_rejects_with_index extDefault
    [⟨.simple "platform" .Equals "RTD", .string "ok"⟩]
    [⟨.and [], .string "junk"⟩]
    ⟨.simple "" .Equals "x", .string "bad"⟩ none hpre).1 .Equals "x" rfl

/-- Claim C7 counterexample: a document whose Simple condition carries the
unknown operator string "unknown" is rejected by the pipeline with a decode
(JSON) error — the generic untagged-enum message — not by the validator and
not with an error naming the operator defect. -/
theorem C7_counterexample_decode_rejects :
    validate_json extDefault
      ⟨[⟨.simple "platform" "unknown" "x", .string "r"⟩], none⟩
      = .error (.JsonError "data did not match any variant of untagged enum Condition") := rfl

/-- Claim C7 (amended): an unknown operator string never reaches the
validator.  Every value of the closed operator enumeration passes
`Operator.is_valid`, so `validate_condition` can never return an
`InvalidOperator` error; a document carrying an operator string outside the
nine known ones is instead rejected while decoding, with a generic JSON
error. -/
theorem C7_unknown_operator_rejected_at_decode (ext : ExternalFns) :
    (∀ op : Operator, op.is_valid = true)
    ∧ (∀ (c : Condition) (i : Nat) (msg : String),
        validate_condition ext c i ≠ .error (.InvalidOperator msg))
    ∧ (∀ (field op value : String) (res : RuleResult) (rest : List RawRule)
        (fb : Option RuleResult),
        Operator.fromString op = none →
        validate_json ext ⟨⟨.simple field op value, res⟩ :: rest, fb⟩ =
          .error (.JsonError "data did not match any variant of untagged enum Condition")) := by
  refine ⟨Operator.is_valid_eq_true, validate_condition_no_invalid_op ext, ?_⟩
  intro field op value res rest fb hop
  unfold validate_json decodeConfigRules decodeRuleList decodeRule
  rw [show decodeCondition (.simple field op value) = none from by
    unfold decodeCondition
    rw [hop]]

/-- Claim C8: validation success forces every And and every Or node in every
condition tree of every rule to have a non-empty children list. -/
theorem C8_validated_and_or_nonempty (ext : ExternalFns) (rs : ConfigRules)
    (h : validate_rules ext rs = .ok ()) :
    ∀ r ∈ rs.rules, cond_and_or_nonempty r.condition = true := by
  intro r hr
  rcases validate_rules_ok_mem ext rs h r hr with ⟨i, hok⟩
  exact validate_condition_and_or_nonempty ext r.condition i hok

/-- Claim C8 witness: the invariant instance obtained from a concrete
validated rule set with a nested And node. -/
theorem C8_validated_and_or_nonempty_witness :
    cond_and_or_nonempty
      (Condition.and [.or [.simple "platform" .PrefixOp "Hi",
                           .simple "platform" .PrefixOp "MT"],
                      .simple "region" .Equals "CN"]) = true := by
  exact C8_validated_and_or_nonempty extDefault
    ⟨[⟨.and [.or [.simple "platform" .PrefixOp "Hi",
                  .simple "platform" .PrefixOp "MT"],
             .simple "region" .Equals "CN"], .string "chip_cn"⟩], none⟩ rfl
    ⟨.and [.or [.simple "platform" .PrefixOp "Hi",
                .simple "platform" .PrefixOp "MT"],
           .simple "region" .Equals "CN"], .string "chip_cn"⟩
    (List.mem_singleton.mpr rfl)

mutual

/-- Condition evaluation reads the context only through `lookup`: two
contexts with the same lookup function evaluate every condition alike. -/
theorem evaluate_condition_congr (ext : ExternalFns) (params params2 : Ctx)
    (hctx : ∀ f, params.lookup f = params2.lookup f) :
    ∀ c : Condition,
      evaluate_condition ext c params = evaluate_condition ext c params2
| .simple field op value => by
  show evaluate_simple_condition ext field op value params
    = evaluate_simple_condition ext field op value params2
  unfold evaluate_simple_condition
  rw [hctx field]
| .and children => by
  show evaluate_condition_all ext children params
    = evaluate_condition_all ext children params2
  exact evaluate_condition_all_congr ext params params2 hctx children
| .or children => by
  show evaluate_condition_any ext children params
    = evaluate_condition_any ext children params2
  exact evaluate_condition_any_congr ext params params2 hctx children

/-- List form of `evaluate_condition_congr` for And children. -/
theorem evaluate_condition_all_congr (ext : ExternalFns) (params params2 : Ctx)
    (hctx : ∀ f, params.lookup f = params2.lookup f) :
    ∀ cs : List Condition,
      evaluate_condition_all ext cs params = evaluate_condition_all ext cs params2
| [] => rfl
| c :: rest => by
  show (evaluate_condition ext c params && evaluate_condition_all ext rest params) = _
  rw [evaluate_condition_congr ext params params2 hctx c,
    evaluate_condition_all_congr ext params params2 hctx rest]
  rfl

/-- List form of `evaluate_condition_congr` for Or children. -/
theorem evaluate_condition_any_congr (ext : ExternalFns) (params params2 : Ctx)
    (hctx : ∀ f, params.lookup f = params2.lookup f) :
    ∀ cs : List Condition,
      evaluate_condition_any ext cs params = evaluate_condition_any ext cs params2
| [] => rfl
| c :: rest => by
  show (evaluate_condition ext c params || evaluate_condition_any ext rest params) = _
  rw [evaluate_condition_congr ext params params2 hctx c,
    evaluate_condition_any_congr ext params params2 hctx rest]
  rfl

end

/-- Claim C9: evaluation is deterministic and pure.  It is a function of the
rule set and the context alone (stated both as repeatability of two calls on
equal inputs and as dependence on the context only through its lookup
mapping); mutation of the rule set or context is not expressible — the
embedding, like the borrow-checked source (`&self`, `&HashMap`), threads no
state. -/
theorem C9_evaluate_deterministic (ext : ExternalFns) (rs rs2 : ConfigRules)
    (params params2 : Ctx) :
    (evaluate ext rs params = evaluate ext rs params)
    ∧ (rs = rs2 → params = params2 →
        evaluate ext rs params = evaluate ext rs2 params2)
    ∧ ((∀ f, params.lookup f = params2.lookup f) →
        evaluate ext rs params = evaluate ext rs params2) := by
  refine ⟨rfl, ?_, ?_⟩
  · intro h1 h2
    rw [h1, h2]
  · intro hctx
    unfold evaluate
    have : ∀ rules : List Rule,
        evaluate_rules_list ext params rs.fallback rules
          = evaluate_rules_list ext params2 rs.fallback rules := by
      intro rules
      induction rules with
      | nil => rfl
      | cons r rest ih =>
        show (if evaluate_condition ext r.condition params then some r.result
          else evaluate_rules_list ext params rs.fallback rest) = _
        rw [evaluate_condition_congr ext params params2 hctx r.condition, ih]
        rfl
    exact this rs.rules
